import Mathlib

/-!
Verification of the CSS Solaris game-moderation core against its
natural-language specification.

The definitions below are shallow embeddings of the Python source:
`utils/game_logic.py` (vote counting and win evaluation),
`utils/roles.py` (role distribution and assignment), and
`models/game.py` (the `Game` state machine and its serialization).
Python dictionaries are modelled as insertion-ordered association lists,
machine integers as `Int`/`Nat`, and Python's float division in the two
majority comparisons as exact rational (`ℚ`) division.
-/

namespace Solaris

/-- A vote target: either a candidate's user id, or one of the two string
sentinels `"ABSTAIN"` / `"VETO"` recognised by `count_votes`. -/
inductive Target where
  | candidate (id : Int)
  | abstain
  | veto
deriving DecidableEq, Repr

/-- A day's vote record: the dict mapping voter id to target, modelled as an
insertion-ordered association list (Python dict keys are unique and ordered). -/
abbrev VoteRecord := List (Int × Target)

/-- A candidate tally: the dict mapping candidate id to vote count, in
insertion order. -/
abbrev Tally := List (Int × Nat)

/-- `tally[target] = tally.get(target, 0) + 1` on a Python dict: increment the
entry in place if the key is present, else append a fresh entry with count 1. -/
def bump : Tally → Int → Tally
  | [], c => [(c, 1)]
  | (k, n) :: rest, c => if k = c then (k, n + 1) :: rest else (k, n) :: bump rest c

/-- The counting loop of `count_votes` (`game_logic.py` lines 27-34): one pass
over the vote record accumulating the candidate tally, the veto count and the
abstain count. -/
def countLoop (votes : VoteRecord) : Tally × Nat × Nat :=
  votes.foldl
    (fun acc v =>
      match v.2 with
      | Target.veto => (acc.1, acc.2.1 + 1, acc.2.2)
      | Target.abstain => (acc.1, acc.2.1, acc.2.2 + 1)
      | Target.candidate c => (bump acc.1 c, acc.2.1, acc.2.2))
    ([], 0, 0)

/-- `max(tally.values())`: for the non-empty tallies on which the source
evaluates it, the fold from 0 agrees with Python's `max` since counts are
naturals. -/
def maxVotes (t : Tally) : Nat :=
  t.foldl (fun m kv => max m kv.2) 0

/-- The list comprehension `[pid for pid, n in tally.items() if n == max_votes]`
(`game_logic.py` line 48), in tally insertion order. -/
def tiedPlayers (t : Tally) : List Int :=
  (t.filter (fun kv => kv.2 == maxVotes t)).map Prod.fst

/-- `count_votes` from `utils/game_logic.py` lines 9-59.  The `alive_players`
argument is accepted and ignored, exactly as in the source.  The float
comparison `abstain_count > total_votes / 2` is modelled with exact rational
division. -/
def countVotes (votes : VoteRecord) (alive_players : List Int) :
    Option Int × String × Tally :=
  let counted := countLoop votes
  let tally := counted.1
  let abstain_count := counted.2.2
  if tally = [] ∧ abstain_count = 0 then (none, "no_votes", [])
  else if (abstain_count : ℚ) > (votes.length : ℚ) / 2 then
    (none, "majority_abstain", tally)
  else if tally ≠ [] then
    let tied := tiedPlayers tally
    if 1 < tied.length then (none, "tie", tally)
    else (tied.head?, "elimination", tally)
  else (none, "majority_abstain", tally)

/-! Specification-side vote resolution (spec §4.2): partition the record into
an abstain count, a veto count and a per-candidate tally, then apply the
case analysis with the strict-majority test stated over integers. -/

/-- Spec step 1: the number of `ABSTAIN` votes in the record. -/
def abstainCount (votes : VoteRecord) : Nat :=
  votes.countP (fun v => v.2 == Target.abstain)

/-- Spec step 1: the number of `VETO` votes in the record. -/
def vetoCount (votes : VoteRecord) : Nat :=
  votes.countP (fun v => v.2 == Target.veto)

/-- Spec step 1: the candidate targets of the record, in record order. -/
def candTargets (votes : VoteRecord) : List Int :=
  votes.filterMap (fun v =>
    match v.2 with
    | Target.candidate c => some c
    | _ => none)

/-- Spec step 1: the per-candidate tally, built from the candidate targets
alone (veto and abstain votes never enter it). -/
def specTally (votes : VoteRecord) : Tally :=
  (candTargets votes).foldl bump []

/-- The resolution algorithm as the specification words it (§4.2 steps 2-6):
`NO_VOTES` when the candidate tally is empty and nobody abstained; else
`MAJORITY_ABSTAIN` when strictly more than half of all recorded votes (veto
and candidate votes included in the denominator) are abstentions; else a
`TIE` when more than one candidate holds the maximum count; else the unique
maximum candidate is eliminated; an empty tally with non-majority abstentions
falls through to `MAJORITY_ABSTAIN`. -/
def countVotesSpec (votes : VoteRecord) (alive_players : List Int) :
    Option Int × String × Tally :=
  let tally := specTally votes
  let ab := abstainCount votes
  if tally = [] ∧ ab = 0 then (none, "no_votes", [])
  else if 2 * ab > votes.length then (none, "majority_abstain", tally)
  else if tally ≠ [] then
    let tied := tiedPlayers tally
    if 1 < tied.length then (none, "tie", tally)
    else (tied.head?, "elimination", tally)
  else (none, "majority_abstain", tally)

/-- The one-pass counting loop computes exactly the spec's three partitions. -/
theorem countLoop_eq (votes : VoteRecord) :
    countLoop votes = (specTally votes, vetoCount votes, abstainCount votes) := by
  suffices h : ∀ (vs : VoteRecord) (t : Tally) (vc ac : Nat),
      vs.foldl
        (fun acc v =>
          match v.2 with
          | Target.veto => (acc.1, acc.2.1 + 1, acc.2.2)
          | Target.abstain => (acc.1, acc.2.1, acc.2.2 + 1)
          | Target.candidate c => (bump acc.1 c, acc.2.1, acc.2.2))
        (t, vc, ac) =
      ((candTargets vs).foldl bump t, vc + vetoCount vs, ac + abstainCount vs) by
    simpa [countLoop, specTally] using h votes [] 0 0
  intro vs
  induction vs with
  | nil => intro t vc ac; simp [candTargets, vetoCount, abstainCount]
  | cons v rest ih =>
    intro t vc ac
    cases hv : v.2 <;>
      simp [List.foldl_cons, hv, ih, candTargets, vetoCount, abstainCount,
        List.countP_cons, Nat.add_assoc, Nat.add_comm]

/-- The rational strict-majority test agrees with its doubled integer form. -/
theorem half_lt_iff (a n : Nat) : ((a : ℚ) > (n : ℚ) / 2) ↔ 2 * a > n := by
  rw [gt_iff_lt, div_lt_iff (by norm_num : (0:ℚ) < 2)]
  constructor
  · intro h
    have : (n : ℚ) < ((2 * a : Nat) : ℚ) := by push_cast; linarith
    exact_mod_cast this
  · intro h
    have : ((n : Nat) : ℚ) < ((2 * a : Nat) : ℚ) := by exact_mod_cast h
    push_cast at this
    linarith

theorem countVotes_eq_countVotesSpec (votes : VoteRecord) (alive_players : List Int) :
    countVotes votes alive_players = countVotesSpec votes alive_players := by
  unfold countVotes countVotesSpec
  rw [countLoop_eq]
  by_cases h0 : specTally votes = [] ∧ abstainCount votes = 0
  · simp [h0]
  · simp only [h0, if_false]
    rw [if_congr (half_lt_iff (abstainCount votes) votes.length) rfl rfl]

/-- C1: `count_votes` implements the spec's resolution algorithm: it
partitions the record into abstain count, veto count and per-candidate tally;
returns `no_votes` on an empty tally with no abstentions (including the
all-veto record); `majority_abstain` when abstentions strictly exceed half of
all recorded votes (veto and candidate votes counting in the denominator but
never in the tally); `tie` when several candidates share the maximum;
otherwise eliminates the unique maximum candidate; and an empty-tally,
non-empty-abstain fallthrough yields `majority_abstain`. -/
theorem count_votes_implements_spec (votes : VoteRecord) (alive_players : List Int) :
    countVotes votes alive_players = countVotesSpec votes alive_players :=
  countVotes_eq_countVotesSpec votes alive_players

/-! Win evaluation (`utils/game_logic.py` lines 172-215) and the role team
catalog (`utils/roles.py` `ROLES`, of which only the `team` field is ever
consulted by the core logic). -/

/-- First-match association-list lookup with a default: Python's
`dict.get(key, default)` on a dict with unique keys. -/
def dictGet {β : Type} (m : List (Int × β)) (k : Int) (dflt : β) : β :=
  match m with
  | [] => dflt
  | (k', v) :: rest => if k' = k then v else dictGet rest k dflt

/-- The `team` column of the `ROLES` catalog in `utils/roles.py`
(`Saboteur` is the only saboteur-team role; the other three are crew). -/
def teamCatalog : List (String × String) :=
  [("Crew Member", "crew"), ("Saboteur", "saboteur"),
   ("Security Officer", "crew"), ("Engineer", "crew")]

/-- `get_team` from `utils/roles.py`: look the role up in the catalog,
falling back to the `Crew Member` entry (team `crew`) for unknown names. -/
def getTeam (role_name : String) : String :=
  match teamCatalog.find? (fun kv => kv.1 == role_name) with
  | some kv => kv.2
  | none => "crew"

/-- The counting loop of `check_win_condition` (`game_logic.py` lines
195-204): alive players whose role (defaulting to `Crew Member`) is exactly
the string `"Saboteur"`. -/
def aliveSaboteurs (alive_players : List Int) (roles : List (Int × String)) : Nat :=
  alive_players.countP (fun p => dictGet roles p "Crew Member" == "Saboteur")

/-- The crew-side counter of the same loop (computed by the source and, like
there, unused by the returned verdict). -/
def aliveCrew (alive_players : List Int) (roles : List (Int × String)) : Nat :=
  alive_players.countP (fun p => !(dictGet roles p "Crew Member" == "Saboteur"))

/-- `check_win_condition` from `utils/game_logic.py` lines 172-215.  The
float comparison `alive_saboteurs >= len(alive_players) / 2` is modelled with
exact rational division. -/
def checkWinCondition (alive_players : List Int) (roles : List (Int × String)) :
    Option String :=
  if alive_players.length = 0 then some "crew"
  else if roles = [] then
    if alive_players.length ≤ 1 then some "game_over" else none
  else
    let sab := aliveSaboteurs alive_players roles
    if sab = 0 then some "crew"
    else if (sab : ℚ) ≥ (alive_players.length : ℚ) / 2 then some "saboteur"
    else none

/-- The win evaluator as the specification words it (§4.4): empty alive list
defaults to crew; empty role mapping is the legacy mode (`game_over` at one
or zero alive players); otherwise saboteurs are counted through the role
catalog's team mapping and compared to half the alive count under exact
rational division. -/
def checkWinConditionSpec (alive_players : List Int) (roles : List (Int × String)) :
    Option String :=
  if alive_players = [] then some "crew"
  else if roles = [] then
    if alive_players.length ≤ 1 then some "game_over" else none
  else
    let sab := alive_players.countP
      (fun p => getTeam (dictGet roles p "Crew Member") == "saboteur")
    if sab = 0 then some "crew"
    else if (sab : ℚ) ≥ (alive_players.length : ℚ) / 2 then some "saboteur"
    else none

/-- A role's team is `saboteur` exactly when the role is the `Saboteur`. -/
theorem getTeam_eq_saboteur (r : String) :
    (getTeam r == "saboteur") = (r == "Saboteur") := by
  by_cases h2 : r = "Saboteur"
  · subst h2; rfl
  · have hr : (r == "Saboteur") = false := beq_eq_false_iff_ne.mpr h2
    rw [hr]
    by_cases h1 : r = "Crew Member"
    · subst h1; rfl
    · by_cases h3 : r = "Security Officer"
      · subst h3; rfl
      · by_cases h4 : r = "Engineer"
        · subst h4; rfl
        · have e1 : (("Crew Member" : String) == r) = false :=
            beq_eq_false_iff_ne.mpr (fun h => h1 h.symm)
          have e2 : (("Saboteur" : String) == r) = false :=
            beq_eq_false_iff_ne.mpr (fun h => h2 h.symm)
          have e3 : (("Security Officer" : String) == r) = false :=
            beq_eq_false_iff_ne.mpr (fun h => h3 h.symm)
          have e4 : (("Engineer" : String) == r) = false :=
            beq_eq_false_iff_ne.mpr (fun h => h4 h.symm)
          simp [getTeam, teamCatalog, List.find?, e1, e2, e3, e4]

/-- C2: `check_win_condition` satisfies the spec's case analysis: empty alive
list yields `crew`; non-empty alive list with an empty role mapping yields
`game_over` exactly when at most one player is alive; with a non-empty role
mapping it yields `crew` when no saboteur is alive, `saboteur` when alive
saboteurs reach half the alive count under exact rational division, and no
winner otherwise. -/
theorem check_win_condition_implements_spec (alive_players : List Int)
    (roles : List (Int × String)) :
    checkWinCondition alive_players roles = checkWinConditionSpec alive_players roles := by
  unfold checkWinCondition checkWinConditionSpec aliveSaboteurs
  simp only [getTeam_eq_saboteur]
  cases alive_players with
  | nil => rfl
  | cons a rest => simp

/-! Role distribution and assignment (`utils/roles.py` lines 41-110). -/

/-- The four role counts, in the insertion order of the distribution dict
built by `get_role_distribution`.  `crewMember` is an `Int` because the
source computes it by plain subtraction. -/
structure RoleDistribution where
  saboteur : Nat
  securityOfficer : Nat
  engineer : Nat
  crewMember : Int
deriving DecidableEq, Repr

/-- `get_role_distribution` from `utils/roles.py` lines 41-81: raising
`ValueError` below 3 players is modelled as `none`. -/
def getRoleDistribution (num_players : Nat) : Option RoleDistribution :=
  if num_players < 3 then none
  else
    let num_saboteurs := max 1 ((num_players + 3) / 4)
    let security := if 6 ≤ num_players then 1 else 0
    let engineer := if 8 ≤ num_players then 1 else 0
    let special_count := security + engineer + num_saboteurs
    some ⟨num_saboteurs, security, engineer,
          (num_players : Int) - (special_count : Int)⟩

theorem getRoleDistribution_eq (n : Nat) (h : 3 ≤ n) :
    getRoleDistribution n =
      some ⟨(n + 3) / 4, if 6 ≤ n then 1 else 0, if 8 ≤ n then 1 else 0,
            (n : Int) - ((if 6 ≤ n then 1 else 0) + (if 8 ≤ n then 1 else 0)
              + ((n + 3) / 4) : Nat)⟩ := by
  have hmax : max 1 ((n + 3) / 4) = (n + 3) / 4 := by omega
  unfold getRoleDistribution
  rw [if_neg (by omega)]
  simp only [hmax]

/-- The special-role counts never exceed the player count once `n ≥ 3`. -/
theorem specialCount_le (n : Nat) (h : 3 ≤ n) :
    (if 6 ≤ n then 1 else 0) + (if 8 ≤ n then 1 else 0) + (n + 3) / 4 ≤ n := by
  split_ifs <;> omega

/-- C3: for every player count `N ≥ 3`, `get_role_distribution` returns
exactly `max 1 ((N+3)/4)` saboteurs, one security officer iff `N ≥ 6`, one
engineer iff `N ≥ 8`, and the remaining players as crew members; the four
counts sum to `N` and are all non-negative; concretely `N = 3` gives
`{Saboteur 1, Crew Member 2}` and `N = 8` gives `{Saboteur 2, Security
Officer 1, Engineer 1, Crew Member 4}`; and every `N < 3` signals an error
instead of returning a distribution. -/
theorem role_distribution_spec (n : Nat) :
    (n < 3 → getRoleDistribution n = none) ∧
    (3 ≤ n → ∃ d, getRoleDistribution n = some d ∧
      d.saboteur = max 1 ((n + 3) / 4) ∧
      d.securityOfficer = (if 6 ≤ n then 1 else 0) ∧
      d.engineer = (if 8 ≤ n then 1 else 0) ∧
      (d.saboteur : Int) + d.securityOfficer + d.engineer + d.crewMember = n ∧
      0 ≤ d.crewMember) ∧
    getRoleDistribution 3 = some ⟨1, 0, 0, 2⟩ ∧
    getRoleDistribution 8 = some ⟨2, 1, 1, 4⟩ := by
  refine ⟨fun h => by unfold getRoleDistribution; rw [if_pos h], fun h => ?_, by decide, by decide⟩
  refine ⟨_, getRoleDistribution_eq n h,
    (by show (n + 3) / 4 = max 1 ((n + 3) / 4); omega), rfl, rfl, ?_, ?_⟩
  · have := specialCount_le n h
    push_cast
    omega
  · have := specialCount_le n h
    have hmax : max 1 ((n + 3) / 4) = (n + 3) / 4 := by omega
    push_cast
    omega

/-- Witness for `role_distribution_spec`, instantiated at `N = 2` (error
branch) and `N = 8` (the spec's own worked example). -/
theorem role_distribution_spec_witness :
    getRoleDistribution 2 = none ∧
    ∃ d, getRoleDistribution 8 = some d ∧
      d.saboteur = max 1 ((8 + 3) / 4) ∧
      d.securityOfficer = (if 6 ≤ 8 then 1 else 0) ∧
      d.engineer = (if 8 ≤ 8 then 1 else 0) ∧
      (d.saboteur : Int) + d.securityOfficer + d.engineer + d.crewMember = 8 ∧
      0 ≤ d.crewMember :=
  ⟨(role_distribution_spec 2).1 (by decide),
   (role_distribution_spec 8).2.1 (by decide)⟩

/-- Python dict assignment `m[k] = v`: replace in place if the key is
present, else append. -/
def dictSet {β : Type} (m : List (Int × β)) (k : Int) (v : β) : List (Int × β) :=
  match m with
  | [] => [(k, v)]
  | (k', v') :: rest => if k' = k then (k, v) :: rest else (k', v') :: dictSet rest k v

/-- The `role_list` built by `assign_roles` (`utils/roles.py` lines 98-100):
each role name replicated by its count, in the distribution dict's insertion
order.  A negative crew count would replicate zero times, as Python's
`[x] * n` does. -/
def roleList (d : RoleDistribution) : List String :=
  List.replicate d.saboteur "Saboteur"
    ++ List.replicate d.securityOfficer "Security Officer"
    ++ List.replicate d.engineer "Engineer"
    ++ List.replicate d.crewMember.toNat "Crew Member"

/-- The pre-shuffle role list for a player count (the source shuffles this
list in place; theorems quantify over its permutations). -/
def roleListFor (n : Nat) : Option (List String) :=
  (getRoleDistribution n).map roleList

/-- The assignment loop of `assign_roles` (`utils/roles.py` lines 106-108):
`assignments[player_id] = role_name` over `zip(player_ids, role_list)`. -/
def buildAssignments : List (Int × String) → List (Int × String) → List (Int × String)
  | acc, [] => acc
  | acc, (p, r) :: rest => buildAssignments (dictSet acc p r) rest

/-- `assign_roles` with the shuffle outcome made explicit: `shuffled` stands
for the post-`random.shuffle` role list. -/
def assignRolesWith (player_ids : List Int) (shuffled : List String) :
    List (Int × String) :=
  buildAssignments [] (player_ids.zip shuffled)

theorem dictSet_of_not_mem {β : Type} (m : List (Int × β)) (k : Int) (v : β)
    (h : k ∉ m.map Prod.fst) : dictSet m k v = m ++ [(k, v)] := by
  induction m with
  | nil => rfl
  | cons kv rest ih =>
    obtain ⟨k', v'⟩ := kv
    simp only [List.map_cons, List.mem_cons] at h
    push_neg at h
    have hne : ¬ (k' = k) := fun hk => h.1 hk.symm
    simp only [dictSet, if_neg hne, List.cons_append, ih h.2]

theorem buildAssignments_eq_append (pairs : List (Int × String)) :
    ∀ acc, (pairs.map Prod.fst).Nodup →
    (∀ k ∈ pairs.map Prod.fst, k ∉ acc.map Prod.fst) →
    buildAssignments acc pairs = acc ++ pairs := by
  induction pairs with
  | nil => intro acc _ _; simp [buildAssignments]
  | cons pr rest ih =>
    obtain ⟨p, r⟩ := pr
    intro acc hnd hdisj
    simp only [List.map_cons, List.nodup_cons] at hnd
    have hp : p ∉ acc.map Prod.fst := hdisj p (by simp)
    have hstep : dictSet acc p r = acc ++ [(p, r)] := dictSet_of_not_mem acc p r hp
    have hdisj' : ∀ k ∈ rest.map Prod.fst, k ∉ (acc ++ [(p, r)]).map Prod.fst := by
      intro k hk
      simp only [List.map_append, List.mem_append, List.map_cons, List.map_nil,
        List.mem_singleton, not_or]
      refine ⟨hdisj k (by simp [hk]), ?_⟩
      intro hkp
      exact hnd.1 (hkp ▸ hk)
    show buildAssignments (dictSet acc p r) rest = acc ++ (p, r) :: rest
    rw [hstep, ih (acc ++ [(p, r)]) hnd.2 hdisj', List.append_assoc]
    rfl

/-- On distinct player ids zipped against an equally long role list, the
assignment dict is just the zip. -/
theorem assignRolesWith_eq_zip (ps : List Int) (rs : List String)
    (hnd : ps.Nodup) (hlen : ps.length ≤ rs.length) :
    assignRolesWith ps rs = ps.zip rs := by
  have hkeys : (ps.zip rs).map Prod.fst = ps := List.map_fst_zip ps rs hlen
  unfold assignRolesWith
  rw [buildAssignments_eq_append (ps.zip rs) [] (by rw [hkeys]; exact hnd)
    (by simp)]
  exact List.nil_append _

theorem dictGet_cons_ne {β : Type} (k' q : Int) (v : β) (m : List (Int × β))
    (d : β) (h : k' ≠ q) : dictGet ((k', v) :: m) q d = dictGet m q d := by
  simp [dictGet, h]

/-- Looking each distinct player up in the zip assignment counts exactly the
`"Saboteur"` entries of the role list. -/
theorem countP_zip_lookup (ps : List Int) (rs : List String)
    (hnd : ps.Nodup) (hlen : ps.length = rs.length) :
    ps.countP (fun p => dictGet (ps.zip rs) p "Crew Member" == "Saboteur") =
      rs.count "Saboteur" := by
  induction ps generalizing rs with
  | nil =>
    cases rs with
    | nil => rfl
    | cons r rt => simp at hlen
  | cons p pt ih =>
    cases rs with
    | nil => simp at hlen
    | cons r rt =>
      simp only [List.nodup_cons] at hnd
      have hlen' : pt.length = rt.length := by
        simpa using hlen
      have hhead : dictGet ((p, r) :: pt.zip rt) p "Crew Member" = r := by
        simp [dictGet]
      have htail : pt.countP
          (fun q => dictGet ((p, r) :: pt.zip rt) q "Crew Member" == "Saboteur") =
          pt.countP (fun q => dictGet (pt.zip rt) q "Crew Member" == "Saboteur") := by
        apply List.countP_congr
        intro q hq
        rw [dictGet_cons_ne p q r (pt.zip rt) "Crew Member"
          (fun hpq => hnd.1 (hpq ▸ hq))]
      rw [List.zip_cons_cons, List.countP_cons, htail, ih rt hnd.2 hlen',
        List.count_cons, hhead]

/-- The role list contains exactly the distribution's saboteur count. -/
theorem roleList_count_saboteur (d : RoleDistribution) :
    (roleList d).count "Saboteur" = d.saboteur := by
  simp [roleList, List.count_append, List.count_replicate]

/-- The role list's length is the sum of the four counts. -/
theorem roleList_length (d : RoleDistribution) :
    (roleList d).length =
      d.saboteur + d.securityOfficer + d.engineer + d.crewMember.toNat := by
  simp [roleList]
  omega

/-- The rational at-least-half test agrees with its doubled integer form. -/
theorem half_le_iff (s n : Nat) : ((s : ℚ) ≥ (n : ℚ) / 2) ↔ 2 * s ≥ n := by
  rw [ge_iff_le, div_le_iff₀ (by norm_num : (0:ℚ) < 2)]
  constructor
  · intro h
    have : ((n : Nat) : ℚ) ≤ ((2 * s : Nat) : ℚ) := by push_cast; linarith
    exact_mod_cast this
  · intro h
    have : ((n : Nat) : ℚ) ≤ ((2 * s : Nat) : ℚ) := by exact_mod_cast h
    push_cast at this
    linarith

/-- C10: a freshly started game is never already won: for every roster of at
least 3 distinct player ids and every shuffle outcome (any permutation of
the role list), `assign_roles` hands out at least one `Saboteur` but strictly
fewer than half the roster, so `check_win_condition` on the full roster
returns no winner. -/
theorem fresh_game_not_won (players : List Int) (shuffled rl : List String)
    (hnd : players.Nodup) (hrl : roleListFor players.length = some rl)
    (hperm : shuffled.Perm rl) :
    1 ≤ aliveSaboteurs players (assignRolesWith players shuffled) ∧
    2 * aliveSaboteurs players (assignRolesWith players shuffled) < players.length ∧
    checkWinCondition players (assignRolesWith players shuffled) = none := by
  set n := players.length with hn
  obtain ⟨d, hd, hdl⟩ : ∃ d, getRoleDistribution n = some d ∧ roleList d = rl := by
    unfold roleListFor at hrl
    cases hgd : getRoleDistribution n with
    | none => rw [hgd] at hrl; simp at hrl
    | some d => rw [hgd] at hrl; exact ⟨d, rfl, by simpa using hrl⟩
  have h3 : 3 ≤ n := by
    by_contra hlt
    unfold getRoleDistribution at hd
    rw [if_pos (by omega)] at hd
    exact Option.noConfusion hd
  have hdeq := getRoleDistribution_eq n h3
  rw [hd] at hdeq
  have hdval := Option.some.inj hdeq
  have hsab : d.saboteur = (n + 3) / 4 := by rw [hdval]
  have hsec : d.securityOfficer = if 6 ≤ n then 1 else 0 := by rw [hdval]
  have heng : d.engineer = if 8 ≤ n then 1 else 0 := by rw [hdval]
  have hcrew : d.crewMember =
      (n : Int) - ((if 6 ≤ n then 1 else 0) + (if 8 ≤ n then 1 else 0)
        + ((n + 3) / 4) : Nat) := by rw [hdval]
  have hspec := specialCount_le n h3
  have hlenrl : rl.length = n := by
    rw [← hdl, roleList_length, hsab, hsec, heng, hcrew]
    split_ifs at * <;> omega
  have hlensh : shuffled.length = n := by rw [hperm.length_eq, hlenrl]
  have hzip : assignRolesWith players shuffled = players.zip shuffled :=
    assignRolesWith_eq_zip players shuffled hnd (by omega)
  have hcount : aliveSaboteurs players (assignRolesWith players shuffled) =
      (n + 3) / 4 := by
    rw [hzip]
    unfold aliveSaboteurs
    rw [countP_zip_lookup players shuffled hnd (by omega),
      hperm.count_eq "Saboteur", ← hdl, roleList_count_saboteur, hsab]
  refine ⟨by rw [hcount]; omega, by rw [hcount]; omega, ?_⟩
  have hne : assignRolesWith players shuffled ≠ [] := by
    rw [hzip]
    have : (players.zip shuffled).length = n := by
      rw [List.length_zip]
      omega
    intro hempty
    rw [hempty] at this
    simp at this
    omega
  unfold checkWinCondition
  rw [if_neg (by omega : ¬ players.length = 0), if_neg hne]
  simp only
  rw [if_neg (by rw [hcount]; omega : ¬ aliveSaboteurs players (assignRolesWith players shuffled) = 0)]
  rw [if_neg]
  rw [not_le]
  have hlt : 2 * aliveSaboteurs players (assignRolesWith players shuffled) < n := by
    rw [hcount]; omega
  have := (half_le_iff (aliveSaboteurs players (assignRolesWith players shuffled))
    players.length).not
  rw [← hn] at *
  by_contra hge
  rw [not_lt] at hge
  have h2 := (half_le_iff (aliveSaboteurs players (assignRolesWith players shuffled)) n).mp hge
  omega

/-- Witness for `fresh_game_not_won`: three players, identity shuffle. -/
theorem fresh_game_not_won_witness :
    1 ≤ aliveSaboteurs [1, 2, 3] (assignRolesWith [1, 2, 3]
      ["Saboteur", "Crew Member", "Crew Member"]) ∧
    2 * aliveSaboteurs [1, 2, 3] (assignRolesWith [1, 2, 3]
      ["Saboteur", "Crew Member", "Crew Member"]) < ([1, 2, 3] : List Int).length ∧
    checkWinCondition [1, 2, 3] (assignRolesWith [1, 2, 3]
      ["Saboteur", "Crew Member", "Crew Member"]) = none :=
  fresh_game_not_won [1, 2, 3] ["Saboteur", "Crew Member", "Crew Member"]
    ["Saboteur", "Crew Member", "Crew Member"] (by decide) (by rfl)
    (List.Perm.refl _)

/-! The `Game` model (`models/game.py`). -/

/-- `GameStatus` enum from `models/game.py` lines 10-14. -/
inductive GameStatus where
  | signup
  | active
  | ended
deriving DecidableEq, Repr

/-- The enum's string `value`. -/
def GameStatus.value : GameStatus → String
  | .signup => "signup"
  | .active => "active"
  | .ended => "ended"

/-- `GameStatus(value)`: recover the enum member from its string value,
`none` for an unknown value (Python raises `ValueError`). -/
def parseStatus : String → Option GameStatus
  | "signup" => some GameStatus.signup
  | "active" => some GameStatus.active
  | "ended" => some GameStatus.ended
  | _ => none

/-- A day's channel bundle: the inner `{votes_channel_id, discussion_channel_id,
votes_message_id}` dict, whose keys stay strings through serialization. -/
abbrev ChannelBundle := List (String × Int)

/-- The `Game` class state (`models/game.py` lines 20-37).  The `channels`
and `roles` dicts are insertion-ordered association lists with integer keys. -/
structure Game where
  name : String
  creator_id : Int
  signup_thread_id : Int
  status : GameStatus
  current_day : Int
  players : List Int
  channels : List (Int × ChannelBundle)
  roles : List (Int × String)
  eliminated_players : List Int
deriving DecidableEq, Repr

/-- `Game.__init__`: a fresh game in signup, day 0, empty roster. -/
def mkGame (name : String) (creator_id signup_thread_id : Int) : Game :=
  ⟨name, creator_id, signup_thread_id, GameStatus.signup, 0, [], [], [], []⟩

/-- `add_player` (`models/game.py` lines 39-52): append unless already
present; the boolean reports whether the roster changed. -/
def addPlayer (g : Game) (user_id : Int) : Game × Bool :=
  if user_id ∈ g.players then (g, false)
  else ({ g with players := g.players ++ [user_id] }, true)

/-- `remove_player` (lines 54-67): drop the first occurrence if present. -/
def removePlayer (g : Game) (user_id : Int) : Game × Bool :=
  if user_id ∉ g.players then (g, false)
  else ({ g with players := g.players.erase user_id }, true)

/-- `start_game` (lines 69-80): SIGNUP-only transition to ACTIVE, day 1. -/
def startGame (g : Game) : Game × Bool :=
  if g.status ≠ GameStatus.signup then (g, false)
  else ({ g with status := GameStatus.active, current_day := 1 }, true)

/-- `end_game` (lines 82-84): unconditional transition to ENDED. -/
def endGame (g : Game) : Game :=
  { g with status := GameStatus.ended }

/-- `eliminate_player` (lines 86-94): idempotent append, with no check that
the id is in `players`. -/
def eliminatePlayer (g : Game) (user_id : Int) : Game :=
  if user_id ∈ g.eliminated_players then g
  else { g with eliminated_players := g.eliminated_players ++ [user_id] }

/-- The day advance performed by the `end_day` command (`cogs/moderator.py`
lines 219 and 400-406): guarded by ACTIVE status, it moves to
`current_day + 1` and records the new day's channel bundle. -/
def advanceDay (g : Game) (bundle : ChannelBundle) : Game :=
  if g.status = GameStatus.active then
    { g with current_day := g.current_day + 1,
             channels := dictSet g.channels (g.current_day + 1) bundle }
  else g

/-- The operations of the claims' state-machine vocabulary (a fresh game is
the `create` operation; the rest act on an existing game). -/
inductive Op where
  | addPlayer (id : Int)
  | removePlayer (id : Int)
  | startGame
  | eliminatePlayer (id : Int)
  | advanceDay (bundle : ChannelBundle)
  | endGame
deriving DecidableEq, Repr

/-- Apply one operation (discarding the boolean results). -/
def applyOp (g : Game) : Op → Game
  | Op.addPlayer id => (addPlayer g id).1
  | Op.removePlayer id => (removePlayer g id).1
  | Op.startGame => (startGame g).1
  | Op.eliminatePlayer id => eliminatePlayer g id
  | Op.advanceDay bundle => advanceDay g bundle
  | Op.endGame => endGame g

/-- Run a sequence of operations. -/
def runOps (g : Game) (ops : List Op) : Game :=
  ops.foldl applyOp g

/-- Position of a status along SIGNUP → ACTIVE → ENDED. -/
def statusRank : GameStatus → Nat
  | GameStatus.signup => 0
  | GameStatus.active => 1
  | GameStatus.ended => 2

/-- C7: `start_game` succeeds exactly from SIGNUP — returning `true` and
setting status ACTIVE and day 1 — and in every other status returns the
boolean failure `false` with every field of the game unchanged. -/
theorem start_game_spec (g : Game) :
    startGame g =
      if g.status = GameStatus.signup then
        ({ g with status := GameStatus.active, current_day := 1 }, true)
      else (g, false) := by
  unfold startGame
  by_cases h : g.status = GameStatus.signup
  · rw [if_neg (by simpa using h), if_pos h]
  · rw [if_pos (by simpa using h), if_neg h]

/-- C9: eliminating a player twice leaves `eliminated_players` exactly as
after one elimination, and adding a player twice leaves `players` exactly as
after the first add, the second call returning `false` and changing nothing. -/
theorem eliminate_add_idempotent (g : Game) (id : Int) :
    (eliminatePlayer (eliminatePlayer g id) id).eliminated_players =
      (eliminatePlayer g id).eliminated_players ∧
    (addPlayer (addPlayer g id).1 id).1.players = (addPlayer g id).1.players ∧
    (addPlayer (addPlayer g id).1 id).2 = false := by
  have helim : eliminatePlayer (eliminatePlayer g id) id = eliminatePlayer g id := by
    unfold eliminatePlayer
    by_cases h : id ∈ g.eliminated_players
    · rw [if_pos h, if_pos h]
    · rw [if_neg h]
      have : id ∈ (g.eliminated_players ++ [id]) := by simp
      simp [this]
  have hadd : id ∈ (addPlayer g id).1.players := by
    unfold addPlayer
    by_cases h : id ∈ g.players
    · rw [if_pos h]; exact h
    · rw [if_neg h]; simp
  refine ⟨by rw [helim], ?_, ?_⟩ <;>
    · conv in addPlayer (addPlayer g id).1 id => rw [addPlayer, if_pos hadd]

theorem addPlayer_fields (g : Game) (id : Int) :
    (addPlayer g id).1.status = g.status ∧
    (addPlayer g id).1.current_day = g.current_day ∧
    (addPlayer g id).1.eliminated_players = g.eliminated_players := by
  unfold addPlayer; split <;> exact ⟨rfl, rfl, rfl⟩

theorem removePlayer_fields (g : Game) (id : Int) :
    (removePlayer g id).1.status = g.status ∧
    (removePlayer g id).1.current_day = g.current_day ∧
    (removePlayer g id).1.eliminated_players = g.eliminated_players := by
  unfold removePlayer; split <;> exact ⟨rfl, rfl, rfl⟩

theorem eliminatePlayer_fields (g : Game) (id : Int) :
    (eliminatePlayer g id).status = g.status ∧
    (eliminatePlayer g id).current_day = g.current_day ∧
    (eliminatePlayer g id).players = g.players := by
  unfold eliminatePlayer; split <;> exact ⟨rfl, rfl, rfl⟩

theorem advanceDay_fields (g : Game) (b : ChannelBundle) :
    (advanceDay g b).status = g.status ∧
    (advanceDay g b).players = g.players ∧
    (advanceDay g b).eliminated_players = g.eliminated_players := by
  unfold advanceDay; split <;> exact ⟨rfl, rfl, rfl⟩

theorem startGame_fields (g : Game) :
    (startGame g).1.players = g.players ∧
    (startGame g).1.eliminated_players = g.eliminated_players := by
  unfold startGame; split <;> exact ⟨rfl, rfl⟩

theorem statusRank_le_applyOp (g : Game) (op : Op) :
    statusRank g.status ≤ statusRank (applyOp g op).status := by
  cases op with
  | addPlayer id =>
    show statusRank g.status ≤ statusRank (addPlayer g id).1.status
    rw [(addPlayer_fields g id).1]
  | removePlayer id =>
    show statusRank g.status ≤ statusRank (removePlayer g id).1.status
    rw [(removePlayer_fields g id).1]
  | startGame =>
    show statusRank g.status ≤ statusRank (startGame g).1.status
    unfold startGame
    split
    · exact Nat.le_refl _
    · next h =>
      rw [not_not] at h
      rw [h]
      exact Nat.zero_le _
  | eliminatePlayer id =>
    show statusRank g.status ≤ statusRank (eliminatePlayer g id).status
    rw [(eliminatePlayer_fields g id).1]
  | advanceDay b =>
    show statusRank g.status ≤ statusRank (advanceDay g b).status
    rw [(advanceDay_fields g b).1]
  | endGame =>
    show statusRank g.status ≤ statusRank GameStatus.ended
    cases g.status <;> decide

theorem applyOp_ended (g : Game) (op : Op) (h : g.status = GameStatus.ended) :
    (applyOp g op).status = GameStatus.ended := by
  cases op with
  | addPlayer id =>
    show (addPlayer g id).1.status = GameStatus.ended
    rw [(addPlayer_fields g id).1]; exact h
  | removePlayer id =>
    show (removePlayer g id).1.status = GameStatus.ended
    rw [(removePlayer_fields g id).1]; exact h
  | startGame =>
    show (startGame g).1.status = GameStatus.ended
    unfold startGame
    rw [if_pos (by rw [h]; decide)]
    exact h
  | eliminatePlayer id =>
    show (eliminatePlayer g id).status = GameStatus.ended
    rw [(eliminatePlayer_fields g id).1]; exact h
  | advanceDay b =>
    show (advanceDay g b).status = GameStatus.ended
    rw [(advanceDay_fields g b).1]; exact h
  | endGame => rfl

theorem dayInv_step (g : Game) (op : Op)
    (h1 : g.status = GameStatus.signup → g.current_day = 0)
    (h2 : g.status = GameStatus.active → 1 ≤ g.current_day) :
    ((applyOp g op).status = GameStatus.signup → (applyOp g op).current_day = 0) ∧
    ((applyOp g op).status = GameStatus.active → 1 ≤ (applyOp g op).current_day) := by
  cases op with
  | addPlayer id =>
    show ((addPlayer g id).1.status = GameStatus.signup →
        (addPlayer g id).1.current_day = 0) ∧
      ((addPlayer g id).1.status = GameStatus.active →
        1 ≤ (addPlayer g id).1.current_day)
    rw [(addPlayer_fields g id).1, (addPlayer_fields g id).2.1]
    exact ⟨h1, h2⟩
  | removePlayer id =>
    show ((removePlayer g id).1.status = GameStatus.signup →
        (removePlayer g id).1.current_day = 0) ∧
      ((removePlayer g id).1.status = GameStatus.active →
        1 ≤ (removePlayer g id).1.current_day)
    rw [(removePlayer_fields g id).1, (removePlayer_fields g id).2.1]
    exact ⟨h1, h2⟩
  | startGame =>
    show ((startGame g).1.status = GameStatus.signup →
        (startGame g).1.current_day = 0) ∧
      ((startGame g).1.status = GameStatus.active →
        1 ≤ (startGame g).1.current_day)
    unfold startGame
    split
    · exact ⟨h1, h2⟩
    · constructor
      · intro hc
        have hc' : GameStatus.active = GameStatus.signup := hc
        exact absurd hc' (by decide)
      · intro _
        exact le_refl 1
  | eliminatePlayer id =>
    show ((eliminatePlayer g id).status = GameStatus.signup →
        (eliminatePlayer g id).current_day = 0) ∧
      ((eliminatePlayer g id).status = GameStatus.active →
        1 ≤ (eliminatePlayer g id).current_day)
    rw [(eliminatePlayer_fields g id).1, (eliminatePlayer_fields g id).2.1]
    exact ⟨h1, h2⟩
  | advanceDay b =>
    show ((advanceDay g b).status = GameStatus.signup →
        (advanceDay g b).current_day = 0) ∧
      ((advanceDay g b).status = GameStatus.active →
        1 ≤ (advanceDay g b).current_day)
    unfold advanceDay
    split
    · next hact =>
      constructor
      · intro hc
        have hc' : g.status = GameStatus.signup := hc
        rw [hact] at hc'
        exact absurd hc' (by decide)
      · intro _
        have hday := h2 hact
        show 1 ≤ g.current_day + 1
        omega
    · exact ⟨h1, h2⟩
  | endGame =>
    constructor
    · intro hc
      have hc' : GameStatus.ended = GameStatus.signup := hc
      exact absurd hc' (by decide)
    · intro hc
      have hc' : GameStatus.ended = GameStatus.active := hc
      exact absurd hc' (by decide)

theorem dayInv_runOps (ops : List Op) :
    ∀ g, (g.status = GameStatus.signup → g.current_day = 0) →
      (g.status = GameStatus.active → 1 ≤ g.current_day) →
      ((runOps g ops).status = GameStatus.signup → (runOps g ops).current_day = 0) ∧
      ((runOps g ops).status = GameStatus.active → 1 ≤ (runOps g ops).current_day) := by
  induction ops with
  | nil => intro g h1 h2; exact ⟨h1, h2⟩
  | cons op rest ih =>
    intro g h1 h2
    have hstep := dayInv_step g op h1 h2
    exact ih (applyOp g op) hstep.1 hstep.2

/-- Counterexample to C4 as stated: `end_game` is unconditional, so ending a
game still in signup reaches ENDED with `current_day = 0`, falsifying
`current_day == 0 ⟺ status == SIGNUP` on a reachable state. -/
theorem day_link_counterexample :
    (runOps (mkGame "g" 0 0) [Op.endGame]).current_day = 0 ∧
    (runOps (mkGame "g" 0 0) [Op.endGame]).status = GameStatus.ended ∧
    ¬(((runOps (mkGame "g" 0 0) [Op.endGame]).current_day = 0) ↔
      (runOps (mkGame "g" 0 0) [Op.endGame]).status = GameStatus.signup) := by
  refine ⟨rfl, rfl, fun hiff => ?_⟩
  have := hiff.mp rfl
  exact absurd this (by decide)

/-- C4 (amended): for every operation sequence, `status` only ever moves
forward along SIGNUP → ACTIVE → ENDED (never backward), once it reaches
ENDED it never changes again, `current_day = 0` whenever `status = SIGNUP`,
and `current_day ≥ 1` whenever `status = ACTIVE`.  (The converse
`current_day = 0 → status = SIGNUP` fails because `end_game` may be invoked
during signup, leaving an ENDED game with day 0.) -/
theorem game_status_monotonic (g : Game) (op : Op) (name : String)
    (c s : Int) (ops : List Op) :
    statusRank g.status ≤ statusRank (applyOp g op).status ∧
    (g.status = GameStatus.ended → (applyOp g op).status = GameStatus.ended) ∧
    ((runOps (mkGame name c s) ops).status = GameStatus.signup →
      (runOps (mkGame name c s) ops).current_day = 0) ∧
    ((runOps (mkGame name c s) ops).status = GameStatus.active →
      1 ≤ (runOps (mkGame name c s) ops).current_day) := by
  have hinv := dayInv_runOps ops (mkGame name c s) (fun _ => rfl)
    (fun hc =>
      absurd (show GameStatus.signup = GameStatus.active from hc) (by decide))
  exact ⟨statusRank_le_applyOp g op, applyOp_ended g op, hinv.1, hinv.2⟩

/-- Witness for `game_status_monotonic`: an ended game stays ended under
`start_game`, and after `create; start_game` the day is at least 1. -/
theorem game_status_monotonic_witness :
    statusRank (mkGame "w" 0 0).status ≤
      statusRank (applyOp (mkGame "w" 0 0) Op.startGame).status ∧
    (applyOp (endGame (mkGame "w" 0 0)) Op.startGame).status = GameStatus.ended ∧
    1 ≤ (runOps (mkGame "w" 0 0) [Op.startGame]).current_day :=
  ⟨(game_status_monotonic (mkGame "w" 0 0) Op.startGame "w" 0 0 []).1,
   (game_status_monotonic (endGame (mkGame "w" 0 0)) Op.startGame "w" 0 0 []).2.1 rfl,
   (game_status_monotonic (mkGame "w" 0 0) Op.startGame "w" 0 0 [Op.startGame]).2.2.2 rfl⟩

/-! Roster invariants (C6). -/

/-- Whether an operation respects the roster preconditions the claim's
subset invariant needs: eliminations target current players, and removals
never target an already-eliminated player. -/
def goodOp (g : Game) : Op → Bool
  | Op.eliminatePlayer id => decide (id ∈ g.players)
  | Op.removePlayer id => decide (id ∉ g.eliminated_players)
  | _ => true

/-- Whether every operation of a sequence is good in the state it runs in. -/
def goodSeq : Game → List Op → Bool
  | _, [] => true
  | g, op :: rest => goodOp g op && goodSeq (applyOp g op) rest

theorem nodup_applyOp (g : Game) (op : Op) (h : g.players.Nodup) :
    (applyOp g op).players.Nodup := by
  cases op with
  | addPlayer id =>
    show (addPlayer g id).1.players.Nodup
    unfold addPlayer
    split
    · exact h
    · next hmem =>
      show (g.players ++ [id]).Nodup
      rw [List.nodup_append]
      refine ⟨h, List.nodup_singleton id, ?_⟩
      intro x hx hx1
      rw [List.mem_singleton] at hx1
      exact hmem (hx1 ▸ hx)
  | removePlayer id =>
    show (removePlayer g id).1.players.Nodup
    unfold removePlayer
    split
    · exact h
    · exact h.erase id
  | startGame =>
    show (startGame g).1.players.Nodup
    rw [(startGame_fields g).1]; exact h
  | eliminatePlayer id =>
    show (eliminatePlayer g id).players.Nodup
    rw [(eliminatePlayer_fields g id).2.2]; exact h
  | advanceDay b =>
    show (advanceDay g b).players.Nodup
    rw [(advanceDay_fields g b).2.1]; exact h
  | endGame => exact h

theorem subset_applyOp (g : Game) (op : Op) (hgood : goodOp g op = true)
    (h : ∀ x ∈ g.eliminated_players, x ∈ g.players) :
    ∀ x ∈ (applyOp g op).eliminated_players, x ∈ (applyOp g op).players := by
  cases op with
  | addPlayer id =>
    show ∀ x ∈ (addPlayer g id).1.eliminated_players, x ∈ (addPlayer g id).1.players
    unfold addPlayer
    split
    · exact h
    · intro x hx
      exact List.mem_append_left _ (h x hx)
  | removePlayer id =>
    have hid : id ∉ g.eliminated_players := of_decide_eq_true hgood
    show ∀ x ∈ (removePlayer g id).1.eliminated_players, x ∈ (removePlayer g id).1.players
    unfold removePlayer
    split
    · exact h
    · intro x hx
      have hx' : x ∈ g.eliminated_players := hx
      have hne : x ≠ id := fun he => hid (he ▸ hx')
      exact (List.mem_erase_of_ne hne).mpr (h x hx')
  | startGame =>
    show ∀ x ∈ (startGame g).1.eliminated_players, x ∈ (startGame g).1.players
    rw [(startGame_fields g).1, (startGame_fields g).2]; exact h
  | eliminatePlayer id =>
    have hid : id ∈ g.players := of_decide_eq_true hgood
    show ∀ x ∈ (eliminatePlayer g id).eliminated_players, x ∈ (eliminatePlayer g id).players
    unfold eliminatePlayer
    split
    · exact h
    · intro x hx
      have hx' : x ∈ g.eliminated_players ++ [id] := hx
      rcases List.mem_append.mp hx' with hx1 | hx2
      · exact h x hx1
      · rw [List.mem_singleton] at hx2
        exact hx2 ▸ hid
  | advanceDay b =>
    show ∀ x ∈ (advanceDay g b).eliminated_players, x ∈ (advanceDay g b).players
    rw [(advanceDay_fields g b).2.1, (advanceDay_fields g b).2.2]; exact h
  | endGame => exact h

theorem nodup_runOps (ops : List Op) :
    ∀ g, g.players.Nodup → (runOps g ops).players.Nodup := by
  induction ops with
  | nil => intro g h; exact h
  | cons op rest ih => intro g h; exact ih (applyOp g op) (nodup_applyOp g op h)

theorem subset_runOps (ops : List Op) :
    ∀ g, goodSeq g ops = true →
      (∀ x ∈ g.eliminated_players, x ∈ g.players) →
      ∀ x ∈ (runOps g ops).eliminated_players, x ∈ (runOps g ops).players := by
  induction ops with
  | nil => intro g _ h; exact h
  | cons op rest ih =>
    intro g hseq h
    rw [goodSeq, Bool.and_eq_true] at hseq
    exact ih (applyOp g op) hseq.2 (subset_applyOp g op hseq.1 h)

/-- Counterexample to C6 as stated: `eliminate_player` does not validate its
argument, so eliminating an id that never joined puts it in
`eliminated_players` without it being in `players`. -/
theorem roster_subset_counterexample :
    1 ∈ (runOps (mkGame "g" 0 0) [Op.eliminatePlayer 1]).eliminated_players ∧
    1 ∉ (runOps (mkGame "g" 0 0) [Op.eliminatePlayer 1]).players := by
  decide

/-- C6 (amended): under every operation sequence `players` never contains
duplicates; and `eliminated_players ⊆ players` holds for every sequence in
which each `eliminate_player` call targets a then-current player and no
`remove_player` call targets a then-eliminated player (without that
restriction the subset fails, since `eliminate_player` does not validate
membership and `remove_player` does not touch `eliminated_players`). -/
theorem roster_invariants (name : String) (c s : Int) (ops : List Op) :
    (runOps (mkGame name c s) ops).players.Nodup ∧
    (goodSeq (mkGame name c s) ops = true →
      ∀ x ∈ (runOps (mkGame name c s) ops).eliminated_players,
        x ∈ (runOps (mkGame name c s) ops).players) := by
  refine ⟨nodup_runOps ops (mkGame name c s) List.nodup_nil, fun hseq => ?_⟩
  exact subset_runOps ops (mkGame name c s) hseq (by intro x hx; cases hx)

/-- Witness for `roster_invariants`: join then eliminate the same player. -/
theorem roster_invariants_witness :
    (runOps (mkGame "w" 0 0) [Op.addPlayer 5, Op.eliminatePlayer 5]).players.Nodup ∧
    5 ∈ (runOps (mkGame "w" 0 0) [Op.addPlayer 5, Op.eliminatePlayer 5]).players :=
  ⟨(roster_invariants "w" 0 0 [Op.addPlayer 5, Op.eliminatePlayer 5]).1,
   (roster_invariants "w" 0 0 [Op.addPlayer 5, Op.eliminatePlayer 5]).2
     (by decide) 5 (by decide)⟩

/-! Serialization (`models/game.py` `to_dict`/`from_dict`, lines 117-158).
JSON serialization turns the integer keys of `channels` and `roles` into
decimal strings; `from_dict` parses them back with `int(k)`.  The decimal
codec below models that external conversion pair. -/

/-- The decimal digit character for a digit `d < 10`. -/
def digitChar (d : Nat) : Char := Char.ofNat (48 + d)

/-- The numeric value of a decimal digit character. -/
def charDigit (c : Char) : Nat := c.toNat - 48

/-- Decimal string of a natural number, as JSON writes integer keys. -/
def natStr (n : Nat) : String :=
  if n = 0 then "0" else ⟨((Nat.digits 10 n).map digitChar).reverse⟩

/-- Decimal value of a character list, as Python's `int` reads it. -/
def parseNatChars (l : List Char) : Nat :=
  Nat.ofDigits 10 ((l.map charDigit).reverse)

/-- The string key JSON writes for an integer (decimal, minus sign first). -/
def intStr (k : Int) : String :=
  if k < 0 then ⟨'-' :: (natStr (-k).toNat).data⟩ else natStr k.toNat

/-- `int(s)` on a decimal string key with an optional leading minus sign. -/
def parseInt (s : String) : Int :=
  match s.data with
  | [] => 0
  | c :: rest =>
    if c = '-' then -(parseNatChars rest : Int) else (parseNatChars (c :: rest) : Int)

theorem charDigit_digitChar (d : Nat) (h : d < 10) : charDigit (digitChar d) = d := by
  interval_cases d <;> rfl

theorem digitChar_ne_dash (d : Nat) (h : d < 10) : digitChar d ≠ '-' := by
  interval_cases d <;> decide

theorem parseNatChars_natStr (n : Nat) : parseNatChars (natStr n).data = n := by
  unfold natStr
  split
  · next h => subst h; rfl
  · show parseNatChars (((Nat.digits 10 n).map digitChar).reverse) = n
    unfold parseNatChars
    rw [List.map_reverse, List.reverse_reverse, List.map_map]
    have hmap : (Nat.digits 10 n).map (charDigit ∘ digitChar) = Nat.digits 10 n := by
      have h1 : ∀ d ∈ Nat.digits 10 n, (charDigit ∘ digitChar) d = id d :=
        fun d hd => charDigit_digitChar d (Nat.digits_lt_base (by norm_num) hd)
      rw [List.map_congr_left h1, List.map_id]
    rw [hmap, Nat.ofDigits_digits]

theorem natStr_no_dash (n : Nat) : ∀ c ∈ (natStr n).data, c ≠ '-' := by
  unfold natStr
  split
  · intro c hc
    rw [show (("0" : String).data) = ['0'] from rfl, List.mem_singleton] at hc
    subst hc; decide
  · intro c hc
    rw [show ((⟨((Nat.digits 10 n).map digitChar).reverse⟩ : String).data) =
      ((Nat.digits 10 n).map digitChar).reverse from rfl, List.mem_reverse] at hc
    obtain ⟨d, hd, rfl⟩ := List.mem_map.mp hc
    exact digitChar_ne_dash d (Nat.digits_lt_base (by norm_num) hd)

theorem natStr_data_ne_nil (n : Nat) : (natStr n).data ≠ [] := by
  unfold natStr
  split
  · decide
  · next h =>
    show ((Nat.digits 10 n).map digitChar).reverse ≠ []
    simp [Nat.digits_ne_nil_iff_ne_zero.mpr h]

/-- The codec round trip: parsing the JSON string key of any integer gives
back the integer. -/
theorem parseInt_intStr (k : Int) : parseInt (intStr k) = k := by
  unfold intStr
  split
  · next hneg =>
    show parseInt ⟨'-' :: (natStr (-k).toNat).data⟩ = k
    show -(parseNatChars (natStr (-k).toNat).data : Int) = k
    rw [parseNatChars_natStr, Int.toNat_of_nonneg (by omega)]
    omega
  · next hpos =>
    cases hdata : (natStr k.toNat).data with
    | nil => exact absurd hdata (natStr_data_ne_nil k.toNat)
    | cons c rest =>
      have hc : c ≠ '-' :=
        natStr_no_dash k.toNat c (hdata ▸ List.mem_cons_self c rest)
      unfold parseInt
      rw [hdata]
      show (if c = '-' then -(parseNatChars rest : Int)
        else (parseNatChars (c :: rest) : Int)) = k
      rw [if_neg hc, ← hdata, parseNatChars_natStr,
        Int.toNat_of_nonneg (by omega)]

/-- The dictionary produced by `to_dict`: same fields, with the status enum
replaced by its string value and integer keys kept as integers. -/
structure GameDict where
  name : String
  creator_id : Int
  signup_thread_id : Int
  status : String
  current_day : Int
  players : List Int
  channels : List (Int × ChannelBundle)
  roles : List (Int × String)
  eliminated_players : List Int
deriving DecidableEq, Repr

/-- The same dictionary after JSON serialization has turned the integer keys
of `channels` and `roles` into strings. -/
structure GameDictS where
  name : String
  creator_id : Int
  signup_thread_id : Int
  status : String
  current_day : Int
  players : List Int
  channels : List (String × ChannelBundle)
  roles : List (String × String)
  eliminated_players : List Int
deriving DecidableEq, Repr

/-- `to_dict` (`models/game.py` lines 117-134). -/
def toDict (g : Game) : GameDict :=
  ⟨g.name, g.creator_id, g.signup_thread_id, g.status.value, g.current_day,
   g.players, g.channels, g.roles, g.eliminated_players⟩

/-- JSON key stringification of the intermediate dictionary. -/
def stringifyKeys (d : GameDict) : GameDictS :=
  ⟨d.name, d.creator_id, d.signup_thread_id, d.status, d.current_day, d.players,
   d.channels.map (fun kv => (intStr kv.1, kv.2)),
   d.roles.map (fun kv => (intStr kv.1, kv.2)),
   d.eliminated_players⟩

/-- `from_dict` (lines 136-158) on an integer-keyed dictionary: `int(k)` on
an `int` is the identity, and an unknown status value errors (`none`). -/
def fromDict (d : GameDict) : Option Game :=
  match parseStatus d.status with
  | none => none
  | some st =>
    some ⟨d.name, d.creator_id, d.signup_thread_id, st, d.current_day,
          d.players, d.channels, d.roles, d.eliminated_players⟩

/-- `from_dict` on a string-keyed dictionary: `int(k)` parses each channel
and role key back to an integer. -/
def fromDictS (d : GameDictS) : Option Game :=
  match parseStatus d.status with
  | none => none
  | some st =>
    some ⟨d.name, d.creator_id, d.signup_thread_id, st, d.current_day,
          d.players,
          d.channels.map (fun kv => (parseInt kv.1, kv.2)),
          d.roles.map (fun kv => (parseInt kv.1, kv.2)),
          d.eliminated_players⟩

theorem parseStatus_value (s : GameStatus) : parseStatus s.value = some s := by
  cases s <;> rfl

theorem map_parseInt_intStr {β : Type} (l : List (Int × β)) :
    l.map (fun kv => (parseInt (intStr kv.1), kv.2)) = l := by
  induction l with
  | nil => rfl
  | cons kv rest ih => simp [parseInt_intStr, ih]

/-- C8: serializing a game and deserializing reproduces it exactly on every
field, both directly and through the string-keyed intermediate form JSON
produces, because `from_dict` parses channel and role keys back to
integers. -/
theorem game_round_trip (g : Game) :
    fromDict (toDict g) = some g ∧
    fromDictS (stringifyKeys (toDict g)) = some g := by
  constructor
  · show (match parseStatus g.status.value with
      | none => none
      | some st =>
        some ⟨g.name, g.creator_id, g.signup_thread_id, st, g.current_day,
              g.players, g.channels, g.roles, g.eliminated_players⟩) = some g
    rw [parseStatus_value]
  · show (match parseStatus g.status.value with
      | none => none
      | some st =>
        some ⟨g.name, g.creator_id, g.signup_thread_id, st, g.current_day,
              g.players,
              (g.channels.map (fun kv => (intStr kv.1, kv.2))).map
                (fun kv => (parseInt kv.1, kv.2)),
              (g.roles.map (fun kv => (intStr kv.1, kv.2))).map
                (fun kv => (parseInt kv.1, kv.2)),
              g.eliminated_players⟩) = some g
    rw [parseStatus_value, List.map_map, List.map_map]
    show some ⟨g.name, g.creator_id, g.signup_thread_id, g.status, g.current_day,
      g.players,
      g.channels.map (fun kv => (parseInt (intStr kv.1), kv.2)),
      g.roles.map (fun kv => (parseInt (intStr kv.1), kv.2)),
      g.eliminated_players⟩ = some g
    rw [map_parseInt_intStr, map_parseInt_intStr]

/-! Concrete vote-tally vectors (C5). -/

/-- Counterexample to C5 as stated: on the enumerated record voter1→A,
voter2→B, voter3→C, voter4→B (A=101, B=102, C=103) the candidate tally is
`{A:1, B:2, C:1}` — four votes cannot produce the claimed `{A:1, B:2, C:2}` —
so B holds the unique maximum and `count_votes` returns `elimination` of B,
not the claimed `TIE` with no one eliminated. -/
theorem vote_tally_vectors_counterexample :
    countVotes [(1, Target.candidate 101), (2, Target.candidate 102),
        (3, Target.candidate 103), (4, Target.candidate 102)] [101, 102, 103] =
      (some 102, "elimination", [(101, 1), (102, 2), (103, 1)]) ∧
    countVotes [(1, Target.candidate 101), (2, Target.candidate 102),
        (3, Target.candidate 103), (4, Target.candidate 102)] [101, 102, 103] ≠
      (none, "tie", [(101, 1), (102, 2), (103, 2)]) := by
  rw [countVotes_eq_countVotesSpec]
  exact ⟨by decide, by decide⟩

/-- C5 (amended): the tie vector needs the fifth vote voter5→C that the
claimed tally `{A:1, B:2, C:2}` presupposes: on voter1→A, voter2→B,
voter3→C, voter4→B, voter5→C over alive `{A, B, C}` `count_votes` returns
tally `{A:1, B:2, C:2}`, result `TIE`, eliminated none; on
`{v1→X, v2→X, v3→Y}` it returns eliminated X, result `ELIMINATION`, tally
`{X:2, Y:1}`; on `{v1→ABSTAIN, v2→ABSTAIN, v3→X}` it returns result
`MAJORITY_ABSTAIN`; and on the empty record it returns result `NO_VOTES`. -/
theorem vote_tally_vectors :
    countVotes [(1, Target.candidate 101), (2, Target.candidate 102),
        (3, Target.candidate 103), (4, Target.candidate 102),
        (5, Target.candidate 103)] [101, 102, 103] =
      (none, "tie", [(101, 1), (102, 2), (103, 2)]) ∧
    countVotes [(1, Target.candidate 201), (2, Target.candidate 201),
        (3, Target.candidate 202)] [201, 202] =
      (some 201, "elimination", [(201, 2), (202, 1)]) ∧
    (countVotes [(1, Target.abstain), (2, Target.abstain),
        (3, Target.candidate 301)] [301, 302, 303]).2.1 = "majority_abstain" ∧
    (countVotes [] []).2.1 = "no_votes" := by
  rw [countVotes_eq_countVotesSpec, countVotes_eq_countVotesSpec,
    countVotes_eq_countVotesSpec, countVotes_eq_countVotesSpec]
  exact ⟨by decide, by decide, by decide, by decide⟩

end Solaris
